import Mathlib

/-!
Shallow embedding of `kernel/sched/cass.c` (Capacity Aware Superset Scheduler,
CASS): the single function `cass_select_task_rq_fair` together with the
`lsub_positive` macro it uses.

Modelling conventions:
* cpumasks are functions `Nat → Bool` over the id range `[0, nr)`
  (`nr` models `nr_cpu_ids`); `for_each_cpu` iterates set bits in ascending
  order, modelled by filtering `List.range nr`.
* `unsigned long` arithmetic is `Nat` reduced mod `2 ^ 64` (`ULONG_MOD`);
  every value read from an `unsigned long` source is normalized with `% ULONG_MOD`
  and every `+=` re-reduces.
* External collaborators (`wake_affine_idle`, `select_idle_sibling`,
  `wake_wide`, `task_h_load` after `sync_entity_load_avg`, per-cpu
  `rq->cfs.avg.load_avg`) are oracle fields of the input record: the load
  snapshot the call observes.  `wake_affine_idle`'s `nr_cpumask_bits`
  "none found" sentinel is modelled as `Option.none`.
* The local variable `cpu` is declared without an initializer and is read by
  `cpumask_test_cpu(cpu, &cpus)` before its first assignment (which happens
  only later, by `for_each_cpu`); its indeterminate initial value is the
  explicit input field `uninit_cpu`.  Likewise `cands[0].cpu`, which is
  returned unwritten when the candidate mask is empty, is `uninit_best`.
-/

/-- Modulus of the C `unsigned long` type (64-bit on arm64). -/
def ULONG_MOD : Nat := 2 ^ 64

/-- `lsub_positive(_ptr, _val)`: `*ptr -= min_t(typeof(*ptr), *ptr, _val)`,
i.e. subtraction saturating at zero. -/
def lsub_positive (x v : Nat) : Nat := x - min x v

/-- All inputs of one call of `cass_select_task_rq_fair`, including the
oracle answers of every external collaborator (the observed load snapshot). -/
structure CassInput where
  /-- `nr_cpu_ids`: cpu ids range over `[0, nr)`. -/
  nr : Nat
  /-- `cpu_online_mask`. -/
  online : Nat → Bool
  /-- `cpu_perf_mask` (performance tier topology mask). -/
  perf : Nat → Bool
  /-- `cpu_lp_mask` (low-power / efficiency tier topology mask). -/
  lp : Nat → Bool
  /-- per-cpu `cpu_rq(cpu)->cfs.avg.load_avg` as observed by this call. -/
  rq_load : Nat → Nat
  /-- `p->signal->oom_score_adj`. -/
  adj : Int
  /-- the `prev_cpu` argument. -/
  prev_cpu : Nat
  /-- `smp_processor_id()`, the cpu executing the wakeup. -/
  this_cpu : Nat
  /-- indeterminate value of the uninitialized local `cpu` at the point of
  `cpumask_test_cpu(cpu, &cpus)`. -/
  uninit_cpu : Nat
  /-- indeterminate value of `cands[0].cpu` if the loop body never runs. -/
  uninit_best : Nat
  /-- `wake_flags & WF_SYNC`. -/
  wf_sync : Bool
  /-- `wake_flags & WF_FORK`. -/
  wf_fork : Bool
  /-- `wake_flags & WF_TTWU` (the file defaults `WF_TTWU` to `0`, in which
  case this is always `false`). -/
  wf_ttwu : Bool
  /-- `sd_flag & SD_BALANCE_WAKE`. -/
  sd_balance_wake : Bool
  /-- `sd_flag & SD_BALANCE_FORK`. -/
  sd_balance_fork : Bool
  /-- `current->flags & PF_EXITING`. -/
  pf_exiting : Bool
  /-- `current == p`. -/
  current_is_p : Bool
  /-- `task_on_rq_queued(p)`. -/
  task_queued : Bool
  /-- `task_h_load(p)` as it reads right after `sync_entity_load_avg(&p->se)`
  (the refreshed historical load of the task being placed). -/
  p_h_load : Nat
  /-- `task_h_load(current)` (the waking task's historical load). -/
  curr_h_load : Nat
  /-- `wake_wide(p, sibling_count_hint)`. -/
  wake_wide : Bool
  /-- `wake_affine_idle(this_cpu, prev_cpu, sync)`; `none` models the
  `nr_cpumask_bits` sentinel. -/
  wai : Nat → Nat → Bool → Option Nat
  /-- `select_idle_sibling(p, prev_cpu, wa_cpu)` (`p` is fixed for the call). -/
  sis : Nat → Nat → Nat

/-- The online cpu set `cpu_online_mask`, as the ascending list of its ids. -/
def onlineList (i : CassInput) : List Nat :=
  (List.range i.nr).filter (fun c => i.online c)

/-- `asym_cpus = (adj > -1 && adj < 225) ? cpu_perf_mask : cpu_lp_mask;` -/
def cass_asym_cpus (i : CassInput) : Nat → Bool :=
  if i.adj > -1 ∧ i.adj < 225 then i.perf else i.lp

/-- The result of `cpumask_and(&cpus, cpu_online_mask, asym_cpus)`. -/
def cass_and_cpus (i : CassInput) : List Nat :=
  (List.range i.nr).filter (fun c => i.online c && cass_asym_cpus i c)

/-- The candidate mask `cpus`: the intersection above, or — when
`cpumask_and` reports it empty — `cpumask_copy(&cpus, cpu_online_mask)`. -/
def cass_cpus (i : CassInput) : List Nat :=
  if cass_and_cpus i = [] then onlineList i else cass_and_cpus i

/-- `want_affine`: stays `0` unless the wake branch runs, where it is set to
`!wake_wide(p, sibling_count_hint) && cpumask_test_cpu(cpu, &cpus)` — note the
source tests the uninitialized local `cpu`, not `this_cpu`. -/
def cass_want_affine (i : CassInput) : Bool :=
  (i.sd_balance_wake || i.wf_ttwu) &&
    (!i.wake_wide && decide (i.uninit_cpu ∈ cass_cpus i))

/-- `sync` as first computed:
`(wake_flags & WF_SYNC) && !(current->flags & PF_EXITING)`. -/
def cass_sync0 (i : CassInput) : Bool := i.wf_sync && !i.pf_exiting

/-- `sync` after `sync &= want_affine;` (the value the projection loop sees). -/
def cass_sync (i : CassInput) : Bool := cass_sync0 i && cass_want_affine i

/-- The stock wake-affine idle fast path: `some c` when the function returns
`c = select_idle_sibling(p, prev_cpu, wa_cpu)` early, `none` when control
falls through to the load-based selection loop. -/
def cass_fast (i : CassInput) : Option Nat :=
  if i.sd_balance_wake || i.wf_ttwu then
    if cass_want_affine i then
      match i.wai i.this_cpu i.prev_cpu (cass_sync0 i) with
      | some wa_cpu => some (i.sis i.prev_cpu wa_cpu)
      | none => none
    else none
  else none

/-- `p_load`: `0` unless
`!(sd_flag & SD_BALANCE_FORK) && !(wake_flags & WF_FORK)`, in which case it is
the refreshed `task_h_load(p)`. -/
def cass_p_load (i : CassInput) : Nat :=
  if ¬ i.sd_balance_fork ∧ ¬ i.wf_fork then i.p_h_load % ULONG_MOD else 0

/-- `p_queued = task_on_rq_queued(p) || current == p`. -/
def cass_p_queued (i : CassInput) : Bool := i.task_queued || i.current_is_p

/-- The loop body's computation of `curr->load` for one candidate cpu `c`:
read `rq->cfs.avg.load_avg`, then apply the sync / queued adjustments. -/
def cass_proj (i : CassInput) (c : Nat) : Nat :=
  let load := i.rq_load c % ULONG_MOD
  if cass_sync i then
    let load := if c ≠ i.prev_cpu then (load + cass_p_load i) % ULONG_MOD else load
    if c = i.this_cpu then lsub_positive load (i.curr_h_load % ULONG_MOD) else load
  else
    let load := if cass_p_queued i ∧ c ≠ i.prev_cpu then (load + cass_p_load i) % ULONG_MOD
                else load
    if ¬ cass_p_queued i then (load + cass_p_load i) % ULONG_MOD else load

/-- The two-slot reduction of the `for_each_cpu` loop: `best` starts as the
first candidate (the first iteration has `best == curr`), and each later
candidate `curr` replaces `best` exactly when `curr->load <= best->load`. -/
def cass_reduce (b : Nat × Nat) (l : List (Nat × Nat)) : Nat × Nat :=
  l.foldl (fun best curr => if curr.2 ≤ best.2 then curr else best) b

/-- The sequence of `(curr->cpu, curr->load)` pairs the loop builds, in
ascending-id iteration order. -/
def cass_cands (i : CassInput) : List (Nat × Nat) :=
  (cass_cpus i).map (fun c => (c, cass_proj i c))

/-- `best->cpu` at the end of the loop (the uninitialized `cands[0].cpu` when
the candidate mask is empty and the loop body never runs). -/
def cass_slow (i : CassInput) : Nat :=
  match cass_cands i with
  | [] => i.uninit_best
  | b :: rest => (cass_reduce b rest).1

/-- `cass_select_task_rq_fair`: the fast-path early return when it fires,
otherwise the loop's best candidate. -/
def cass_select_task_rq_fair (i : CassInput) : Nat :=
  match cass_fast i with
  | some c => c
  | none => cass_slow i

/-! ### Lemmas about the two-slot reduction -/

theorem cass_reduce_nil (b : Nat × Nat) : cass_reduce b [] = b := rfl

theorem cass_reduce_cons (b c : Nat × Nat) (l : List (Nat × Nat)) :
    cass_reduce b (c :: l) = cass_reduce (if c.2 ≤ b.2 then c else b) l := rfl

theorem cass_reduce_le (l : List (Nat × Nat)) (b : Nat × Nat) :
    (cass_reduce b l).2 ≤ b.2 := by
  induction l generalizing b with
  | nil => exact Nat.le_refl _
  | cons c tl ih =>
    rw [cass_reduce_cons]
    refine (ih _).trans ?_
    by_cases hc : c.2 ≤ b.2
    · rw [if_pos hc]; exact hc
    · rw [if_neg hc]

theorem cass_reduce_mem (l : List (Nat × Nat)) (b : Nat × Nat) :
    cass_reduce b l = b ∨ cass_reduce b l ∈ l := by
  induction l generalizing b with
  | nil => exact Or.inl rfl
  | cons c tl ih =>
    rw [cass_reduce_cons]
    rcases ih (if c.2 ≤ b.2 then c else b) with h | h
    · by_cases hc : c.2 ≤ b.2
      · rw [h, if_pos hc]; exact Or.inr (List.mem_cons_self _ _)
      · rw [h, if_neg hc]; exact Or.inl rfl
    · exact Or.inr (List.mem_cons_of_mem _ h)

/-- Decomposition around the winner: everything before it has load at least
the winner's, everything after it has load strictly greater (so the winner is
the last position attaining the minimum load). -/
theorem cass_reduce_lastmin (l : List (Nat × Nat)) (b : Nat × Nat) :
    ∃ l1 l2, b :: l = l1 ++ cass_reduce b l :: l2 ∧
      (∀ x ∈ l1, (cass_reduce b l).2 ≤ x.2) ∧
      (∀ x ∈ l2, (cass_reduce b l).2 < x.2) := by
  induction l generalizing b with
  | nil => exact ⟨[], [], rfl, by simp, by simp⟩
  | cons c tl ih =>
    rw [cass_reduce_cons]
    obtain ⟨l1, l2, hsplit, h1, h2⟩ := ih (if c.2 ≤ b.2 then c else b)
    by_cases hc : c.2 ≤ b.2
    · rw [if_pos hc] at hsplit h1 h2 ⊢
      refine ⟨b :: l1, l2, ?_, ?_, h2⟩
      · rw [List.cons_append, ← hsplit]
      · intro x hx
        rcases List.mem_cons.mp hx with rfl | hx
        · exact ((cass_reduce_le tl c).trans hc)
        · exact h1 x hx
    · rw [if_neg hc] at hsplit h1 h2 ⊢
      push_neg at hc
      cases l1 with
      | nil =>
        simp only [List.nil_append] at hsplit
        obtain ⟨hb, htl⟩ := List.cons.injEq .. ▸ hsplit
        refine ⟨[], c :: tl, ?_, by simp, ?_⟩
        · simp [← hb]
        · intro x hx
          rcases List.mem_cons.mp hx with rfl | hx
          · rw [← hb]; exact hc
          · rw [htl] at hx
            exact h2 x hx
      | cons a l1' =>
        simp only [List.cons_append] at hsplit
        obtain ⟨hb, htl⟩ := List.cons.injEq .. ▸ hsplit
        refine ⟨b :: c :: l1', l2, ?_, ?_, h2⟩
        · rw [List.cons_append, List.cons_append]
          exact congrArg (List.cons b) (congrArg (List.cons c) htl)
        · intro x hx
          have hrb : (cass_reduce b tl).2 ≤ b.2 := cass_reduce_le tl b
          rcases List.mem_cons.mp hx with rfl | hx
          · exact hrb
          rcases List.mem_cons.mp hx with rfl | hx
          · exact hrb.trans (Nat.le_of_lt hc)
          · exact h1 x (hb ▸ List.mem_cons_of_mem a hx)

/-! ### Lemmas about the candidate mask and the two paths -/

theorem cass_cpus_subset_online (i : CassInput) :
    ∀ c ∈ cass_cpus i, c ∈ onlineList i := by
  intro c hc
  rw [cass_cpus] at hc
  split at hc
  · exact hc
  · rw [cass_and_cpus, List.mem_filter] at hc
    rw [onlineList, List.mem_filter]
    have h2 := hc.2
    simp only [Bool.and_eq_true] at h2
    exact ⟨hc.1, h2.1⟩

theorem cass_cpus_ne_nil (i : CassInput) (h : onlineList i ≠ []) :
    cass_cpus i ≠ [] := by
  rw [cass_cpus]
  split
  · exact h
  · assumption

theorem cass_cpus_pairwise (i : CassInput) :
    (cass_cpus i).Pairwise (· < ·) := by
  rw [cass_cpus]
  split
  · exact (List.pairwise_lt_range i.nr).filter _
  · exact (List.pairwise_lt_range i.nr).filter _

theorem cass_cands_pairwise (i : CassInput) :
    (cass_cands i).Pairwise (fun x y => x.1 < y.1) := by
  rw [cass_cands, List.pairwise_map]
  exact cass_cpus_pairwise i

/-- An early return of the fast path is always the `select_idle_sibling`
refinement of the cpu delivered by `wake_affine_idle`. -/
theorem cass_fast_eq_sis (i : CassInput) (c : Nat) (h : cass_fast i = some c) :
    ∃ wa_cpu, i.wai i.this_cpu i.prev_cpu (cass_sync0 i) = some wa_cpu ∧
      c = i.sis i.prev_cpu wa_cpu := by
  rw [cass_fast] at h
  split at h
  · split at h
    · cases hw : i.wai i.this_cpu i.prev_cpu (cass_sync0 i) with
      | none => rw [hw] at h; exact absurd h (by simp)
      | some wa_cpu =>
        rw [hw] at h
        simp only [Option.some.injEq] at h
        exact ⟨wa_cpu, rfl, h.symm⟩
    · exact absurd h (by simp)
  · exact absurd h (by simp)

/-- The slow path returns a member of the candidate mask whenever that mask
is non-empty. -/
theorem cass_slow_mem (i : CassInput) (h : cass_cpus i ≠ []) :
    cass_slow i ∈ cass_cpus i := by
  rw [cass_slow]
  cases hc : cass_cands i with
  | nil =>
    rw [cass_cands, List.map_eq_nil_iff] at hc
    exact absurd hc h
  | cons b rest =>
    show (cass_reduce b rest).1 ∈ cass_cpus i
    have hmem : cass_reduce b rest ∈ cass_cands i := by
      rw [hc]
      rcases cass_reduce_mem rest b with he | he
      · rw [he]; exact List.mem_cons_self _ _
      · exact List.mem_cons_of_mem _ he
    rw [cass_cands, List.mem_map] at hmem
    obtain ⟨a, ha, he⟩ := hmem
    rw [← he]
    exact ha

/-! ### Lemmas about the projection and the selection entry point -/

theorem lsub_positive_eq_sub (x v : Nat) : lsub_positive x v = x - v := by
  rw [lsub_positive]; omega

theorem cass_mod_mod (x : Nat) :
    x % ULONG_MOD % ULONG_MOD = x % ULONG_MOD :=
  Nat.mod_mod_of_dvd x dvd_rfl

/-- Synchronous-mode projection, written as one closed formula. -/
theorem cass_proj_sync_eq (i : CassInput) (c : Nat) (hs : cass_sync i = true) :
    cass_proj i c =
      (if c = i.prev_cpu then i.rq_load c % ULONG_MOD
       else (i.rq_load c % ULONG_MOD + cass_p_load i) % ULONG_MOD) -
      (if c = i.this_cpu then i.curr_h_load % ULONG_MOD else 0) := by
  by_cases hp : c = i.prev_cpu
  · by_cases ht : c = i.this_cpu
    · have hpt : i.prev_cpu = i.this_cpu := hp.symm.trans ht
      simp [cass_proj, hs, hp, ht, hpt, lsub_positive_eq_sub]
    · have hpt : ¬ i.prev_cpu = i.this_cpu := fun h => ht (hp.trans h)
      simp [cass_proj, hs, hp, ht, hpt, lsub_positive_eq_sub]
  · by_cases ht : c = i.this_cpu <;>
      simp [cass_proj, hs, hp, ht, lsub_positive_eq_sub]

/-- Non-synchronous projection for a queued/runnable task. -/
theorem cass_proj_async_queued (i : CassInput) (c : Nat)
    (hs : cass_sync i = false) (hq : cass_p_queued i = true) :
    cass_proj i c =
      if c = i.prev_cpu then i.rq_load c % ULONG_MOD
      else (i.rq_load c % ULONG_MOD + cass_p_load i) % ULONG_MOD := by
  by_cases hp : c = i.prev_cpu <;> simp [cass_proj, hs, hq, hp]

/-- Non-synchronous projection for a task that is not queued/runnable. -/
theorem cass_proj_async_not_queued (i : CassInput) (c : Nat)
    (hs : cass_sync i = false) (hq : cass_p_queued i = false) :
    cass_proj i c = (i.rq_load c % ULONG_MOD + cass_p_load i) % ULONG_MOD := by
  simp [cass_proj, hs, hq]

theorem cass_select_eq_fast (i : CassInput) (c : Nat)
    (h : cass_fast i = some c) : cass_select_task_rq_fair i = c := by
  unfold cass_select_task_rq_fair
  rw [h]

theorem cass_select_eq_slow (i : CassInput)
    (h : cass_fast i = none) : cass_select_task_rq_fair i = cass_slow i := by
  unfold cass_select_task_rq_fair
  rw [h]

/-! ### The claims -/

/-- Claim C1: with a non-empty online cpu set (and the idle-sibling
collaborator honouring its contract of returning an online cpu), every call
returns a member of the online set; when the idle fast path does not fire,
the returned cpu is moreover a member of the candidate mask built by the
tier partitioner. -/
theorem cass_c1_totality (i : CassInput)
    (honline : onlineList i ≠ [])
    (hsis : ∀ a b, i.sis a b ∈ onlineList i) :
    cass_select_task_rq_fair i ∈ onlineList i ∧
      (cass_fast i = none → cass_select_task_rq_fair i ∈ cass_cpus i) := by
  have hcpus : cass_cpus i ≠ [] := cass_cpus_ne_nil i honline
  cases hf : cass_fast i with
  | some c =>
    obtain ⟨wa_cpu, hwa, hc⟩ := cass_fast_eq_sis i c hf
    refine ⟨?_, fun hn => Option.noConfusion hn⟩
    rw [cass_select_eq_fast i c hf, hc]
    exact hsis _ _
  | none =>
    have hsel := cass_select_eq_slow i hf
    have hmem := cass_slow_mem i hcpus
    exact ⟨hsel ▸ cass_cpus_subset_online i _ hmem, fun _ => hsel ▸ hmem⟩

/-- Claim C2: the candidate mask is `online ∩ perf` for oom_score_adj
strictly between -1 and 225 and `online ∩ lp` otherwise; an empty
intersection falls back to the whole online set, which also makes the mask
non-empty whenever some cpu is online. -/
theorem cass_c2_tier_partition (i : CassInput) (tier : Nat → Bool)
    (htier : tier = if i.adj > -1 ∧ i.adj < 225 then i.perf else i.lp) :
    ((∃ c ∈ onlineList i, tier c = true) →
        cass_cpus i = (onlineList i).filter tier) ∧
    ((¬ ∃ c ∈ onlineList i, tier c = true) → cass_cpus i = onlineList i) ∧
    (onlineList i ≠ [] → cass_cpus i ≠ []) := by
  have htier2 : tier = cass_asym_cpus i := by rw [htier, cass_asym_cpus]
  have hand : cass_and_cpus i = (onlineList i).filter tier := by
    rw [htier2, cass_and_cpus, onlineList, List.filter_filter]
    exact List.filter_congr (fun a _ => by rw [Bool.and_comm])
  refine ⟨fun hex => ?_, fun hno => ?_, cass_cpus_ne_nil i⟩
  · obtain ⟨c, hc, htc⟩ := hex
    have hne : cass_and_cpus i ≠ [] := by
      rw [hand]
      intro hnil
      exact (List.filter_eq_nil_iff.mp hnil) c hc htc
    rw [cass_cpus, if_neg hne, hand]
  · have hnil : cass_and_cpus i = [] := by
      rw [hand, List.filter_eq_nil_iff]
      intro a ha hpa
      exact hno ⟨a, ha, hpa⟩
    rw [cass_cpus, if_pos hnil]

/-- Claim C3: on the reduction path the best candidate starts as the first
candidate, each later candidate replaces it when its projected load is less
than or equal, and the returned cpu is the last (hence, ids being iterated
in ascending order, the highest-id) candidate attaining the minimum
projected load. -/
theorem cass_c3_tie_break (i : CassInput) (b : Nat × Nat)
    (rest : List (Nat × Nat))
    (hfast : cass_fast i = none) (hcands : cass_cands i = b :: rest) :
    cass_select_task_rq_fair i = (cass_reduce b rest).1 ∧
    (∀ b0 : Nat × Nat, cass_reduce b0 [] = b0) ∧
    (∀ (b0 c : Nat × Nat) (tl : List (Nat × Nat)),
        cass_reduce b0 (c :: tl) =
          cass_reduce (if c.2 ≤ b0.2 then c else b0) tl) ∧
    (∀ x ∈ b :: rest, (cass_reduce b rest).2 ≤ x.2) ∧
    (∃ l1 l2, b :: rest = l1 ++ cass_reduce b rest :: l2 ∧
        (∀ x ∈ l1, (cass_reduce b rest).2 ≤ x.2) ∧
        (∀ x ∈ l2, (cass_reduce b rest).2 < x.2)) ∧
    (∀ x ∈ b :: rest, x.2 = (cass_reduce b rest).2 →
        x.1 ≤ (cass_reduce b rest).1) := by
  obtain ⟨l1, l2, hsplit, h1, h2⟩ := cass_reduce_lastmin rest b
  have hmin : ∀ x ∈ b :: rest, (cass_reduce b rest).2 ≤ x.2 := by
    intro x hx
    rw [hsplit] at hx
    rcases List.mem_append.mp hx with hx | hx
    · exact h1 x hx
    · rcases List.mem_cons.mp hx with rfl | hx
      · exact Nat.le_refl _
      · exact Nat.le_of_lt (h2 x hx)
  refine ⟨?_, fun b0 => rfl, fun b0 c tl => rfl, hmin, ⟨l1, l2, hsplit, h1, h2⟩, ?_⟩
  · rw [cass_select_eq_slow i hfast, cass_slow, hcands]
  · intro x hx hload
    have hpw := cass_cands_pairwise i
    rw [hcands, hsplit, List.pairwise_append] at hpw
    rw [hsplit] at hx
    rcases List.mem_append.mp hx with hx | hx
    · exact Nat.le_of_lt (hpw.2.2 x hx _ (List.mem_cons_self _ _))
    · rcases List.mem_cons.mp hx with rfl | hx
      · exact Nat.le_refl _
      · exact absurd hload (Nat.ne_of_gt (h2 x hx))

/-- Claim C4: in synchronous mode the projected load is the candidate's
current load, plus the task's load when the candidate is not the previous
cpu, minus the waking task's historical load when the candidate is the cpu
executing the wakeup — with that subtraction saturating at zero, so the
projection collapses to zero (instead of underflowing) whenever the waker's
load reaches or exceeds the rest of the sum. -/
theorem cass_c4_sync_saturation (i : CassInput) (c : Nat)
    (hsync : cass_sync i = true) :
    cass_proj i c =
      (if c = i.prev_cpu then i.rq_load c % ULONG_MOD
       else (i.rq_load c % ULONG_MOD + cass_p_load i) % ULONG_MOD) -
      (if c = i.this_cpu then i.curr_h_load % ULONG_MOD else 0) ∧
    (c = i.this_cpu →
      (if c = i.prev_cpu then i.rq_load c % ULONG_MOD
       else (i.rq_load c % ULONG_MOD + cass_p_load i) % ULONG_MOD) ≤
        i.curr_h_load % ULONG_MOD →
      cass_proj i c = 0) := by
  have hmain := cass_proj_sync_eq i c hsync
  refine ⟨hmain, fun ht hle => ?_⟩
  rw [hmain, if_pos ht]
  exact Nat.sub_eq_zero_of_le hle

/-- Claim C5: outside synchronous mode, a queued/runnable task's load is
added exactly on the candidates other than its previous cpu, while a task
that is not queued/runnable has its load added on every candidate. -/
theorem cass_c5_async_projection (i : CassInput) (c : Nat)
    (hsync : cass_sync i = false) :
    (cass_p_queued i = true →
        cass_proj i c =
          if c = i.prev_cpu then i.rq_load c % ULONG_MOD
          else (i.rq_load c % ULONG_MOD + cass_p_load i) % ULONG_MOD) ∧
    (cass_p_queued i = false →
        cass_proj i c = (i.rq_load c % ULONG_MOD + cass_p_load i) % ULONG_MOD) :=
  ⟨fun hq => cass_proj_async_queued i c hsync hq,
   fun hq => cass_proj_async_not_queued i c hsync hq⟩

/-- Claim C7: when the idle fast path delivers a concrete cpu the call
returns the idle-sibling refinement of it at once — unchanged under any
alteration of the per-cpu load snapshot — and the `none` sentinel instead
routes the call to the load-based reduction. -/
theorem cass_c7_idle_short_circuit (i : CassInput) (c : Nat)
    (hfast : cass_fast i = some c) :
    cass_select_task_rq_fair i = c ∧
    (∃ wa_cpu, i.wai i.this_cpu i.prev_cpu (cass_sync0 i) = some wa_cpu ∧
        c = i.sis i.prev_cpu wa_cpu) ∧
    (∀ g : Nat → Nat, cass_select_task_rq_fair { i with rq_load := g } = c) ∧
    (∀ j : CassInput, cass_fast j = none →
        cass_select_task_rq_fair j = cass_slow j) := by
  refine ⟨cass_select_eq_fast i c hfast, cass_fast_eq_sis i c hfast,
    fun g => ?_, fun j hj => cass_select_eq_slow j hj⟩
  have hsame : cass_fast { i with rq_load := g } = cass_fast i := rfl
  exact cass_select_eq_fast _ c (hsame.trans hfast)

/-- Claim C8: a fork/creation call skips the load refresh and contributes a
zero task load, so every candidate's projection is its raw (mod-reduced)
current load, altered only by the synchronous-mode self-subtraction; a
non-fork call feeds the refreshed `task_h_load(p)` into the projection. -/
theorem cass_c8_fork_zero_load (i : CassInput) :
    ((i.sd_balance_fork = true ∨ i.wf_fork = true) →
        cass_p_load i = 0 ∧
        ∀ c, cass_proj i c =
          if cass_sync i = true ∧ c = i.this_cpu
          then i.rq_load c % ULONG_MOD - i.curr_h_load % ULONG_MOD
          else i.rq_load c % ULONG_MOD) ∧
    (i.sd_balance_fork = false → i.wf_fork = false →
        cass_p_load i = i.p_h_load % ULONG_MOD) := by
  constructor
  · intro hfork
    have hpl : cass_p_load i = 0 := by
      rcases hfork with h | h <;> simp [cass_p_load, h]
    refine ⟨hpl, fun c => ?_⟩
    by_cases hs : cass_sync i = true
    · rw [cass_proj_sync_eq i c hs, hpl]
      by_cases ht : c = i.this_cpu
      · by_cases hp : c = i.prev_cpu
        · have hpt : i.prev_cpu = i.this_cpu := hp.symm.trans ht
          simp [hp, ht, hs, hpt, Nat.add_zero, cass_mod_mod]
        · simp [hp, ht, hs, Nat.add_zero, cass_mod_mod]
      · by_cases hp : c = i.prev_cpu
        · have hpt : ¬ i.prev_cpu = i.this_cpu := fun h => ht (hp.trans h)
          simp [hp, ht, hs, hpt, Nat.add_zero, cass_mod_mod]
        · simp [hp, ht, hs, Nat.add_zero, cass_mod_mod]
    · have hs' : cass_sync i = false := by
        cases h : cass_sync i
        · rfl
        · exact absurd h hs
      have hrhs : (if cass_sync i = true ∧ c = i.this_cpu
          then i.rq_load c % ULONG_MOD - i.curr_h_load % ULONG_MOD
          else i.rq_load c % ULONG_MOD) = i.rq_load c % ULONG_MOD := by
        simp [hs']
      rw [hrhs]
      by_cases hq : cass_p_queued i = true
      · rw [cass_proj_async_queued i c hs' hq, hpl]
        by_cases hp : c = i.prev_cpu <;> simp [hp, Nat.add_zero, cass_mod_mod]
      · have hq' : cass_p_queued i = false := by
          cases h : cass_p_queued i
          · rfl
          · exact absurd h hq
        rw [cass_proj_async_not_queued i c hs' hq', hpl, Nat.add_zero,
          cass_mod_mod]
  · intro h1 h2
    simp [cass_p_load, h1, h2]

/-- Claim C10: a task that is the very task running on the calling cpu
(`current == p`) counts as queued/runnable for the projection, so outside
synchronous mode its load is added only on candidates other than its
previous cpu — never unconditionally. -/
theorem cass_c10_current_counts_queued (i : CassInput)
    (hcp : i.current_is_p = true) :
    cass_p_queued i = true ∧
    (cass_sync i = false →
      ∀ c, cass_proj i c =
        if c = i.prev_cpu then i.rq_load c % ULONG_MOD
        else (i.rq_load c % ULONG_MOD + cass_p_load i) % ULONG_MOD) := by
  have hq : cass_p_queued i = true := by simp [cass_p_queued, hcp]
  exact ⟨hq, fun hs c => cass_proj_async_queued i c hs hq⟩

/-! ### Concrete calls: the uninitialized-`cpu` divergences and witnesses -/

/-- A neutral concrete call: two online performance cpus, no wake branch. -/
def cassBase : CassInput where
  nr := 2
  online := fun _ => true
  perf := fun _ => true
  lp := fun _ => false
  rq_load := fun _ => 0
  adj := 0
  prev_cpu := 0
  this_cpu := 0
  uninit_cpu := 0
  uninit_best := 0
  wf_sync := false
  wf_fork := false
  wf_ttwu := false
  sd_balance_wake := false
  sd_balance_fork := false
  pf_exiting := false
  current_is_p := false
  task_queued := false
  p_h_load := 0
  curr_h_load := 0
  wake_wide := false
  wai := fun _ _ _ => none
  sis := fun _ _ => 0

/-- A wakeup where the wake-wide heuristic says no and the waking cpu (0) is
in the candidate mask `[0, 1]`, but the stack garbage in the uninitialized
local `cpu` is 7. -/
def cassW6 : CassInput :=
  { cassBase with sd_balance_wake := true, wf_sync := true, uninit_cpu := 7 }

/-- Claim C6 failing input: although the wake-wide heuristic says no and the
current cpu is in the candidate mask (so the claim's eligibility condition
holds, and `sync` was requested by a live waker), the code computes
`want_affine = 0` — it tested the uninitialized `cpu` (here 7) instead of
`this_cpu` — and `sync` is invalidated with it. -/
theorem cass_c6_uninitialized_eligibility :
    cassW6.sd_balance_wake = true ∧ cassW6.wake_wide = false ∧
    cassW6.this_cpu ∈ cass_cpus cassW6 ∧
    cass_sync0 cassW6 = true ∧
    cass_want_affine cassW6 = false ∧
    cass_sync cassW6 = false := by decide

/-- A wakeup whose result depends on the indeterminate value of the
uninitialized local `cpu`: candidate mask `[0, 1]`, `this_cpu = 0`,
`prev_cpu = 1`, loads 5 and 3, idle fast path would deliver cpu 0. -/
def cassW9 : CassInput :=
  { cassBase with
    sd_balance_wake := true
    prev_cpu := 1
    task_queued := true
    p_h_load := 4
    rq_load := fun c => if c = 0 then 5 else 3
    wai := fun t _ _ => some t
    sis := fun _ wa => wa }

/-- Claim C9 failing input: two calls identical in every task attribute,
flag, parameter and collaborator answer — differing only in the stack
garbage read from the uninitialized local `cpu` (0 versus 9) — return
different cpus (0 via the fast path versus 1 via the load reduction). -/
theorem cass_c9_uninitialized_nondeterminism :
    cass_select_task_rq_fair cassW9 = 0 ∧
    cass_select_task_rq_fair { cassW9 with uninit_cpu := 9 } = 1 := by decide

def cassW1 : CassInput := { cassBase with rq_load := fun c => 10 + c }

theorem cass_c1_totality_witness :
    onlineList cassW1 ≠ [] ∧ (∀ a b : Nat, cassW1.sis a b ∈ onlineList cassW1) ∧
      (cass_select_task_rq_fair cassW1 ∈ onlineList cassW1 ∧
        (cass_fast cassW1 = none →
          cass_select_task_rq_fair cassW1 ∈ cass_cpus cassW1)) :=
  have h0 : (0 : Nat) ∈ onlineList cassW1 := by decide
  ⟨by decide, fun a b => h0, cass_c1_totality cassW1 (by decide) (fun a b => h0)⟩

def cassW2 : CassInput := { cassBase with lp := fun c => c = 0, adj := 100 }

def cassW2tier : Nat → Bool :=
  if cassW2.adj > -1 ∧ cassW2.adj < 225 then cassW2.perf else cassW2.lp

theorem cass_c2_tier_partition_witness :
    cassW2tier =
      (if cassW2.adj > -1 ∧ cassW2.adj < 225 then cassW2.perf else cassW2.lp) ∧
    (((∃ c ∈ onlineList cassW2, cassW2tier c = true) →
        cass_cpus cassW2 = (onlineList cassW2).filter cassW2tier) ∧
      ((¬ ∃ c ∈ onlineList cassW2, cassW2tier c = true) →
        cass_cpus cassW2 = onlineList cassW2) ∧
      (onlineList cassW2 ≠ [] → cass_cpus cassW2 ≠ [])) :=
  ⟨rfl, cass_c2_tier_partition cassW2 cassW2tier rfl⟩

def cassW3 : CassInput :=
  { cassBase with task_queued := true, p_h_load := 7, rq_load := fun _ => 10 }

theorem cass_c3_tie_break_witness :
    cass_fast cassW3 = none ∧ cass_cands cassW3 = [(0, 10), (1, 17)] ∧
      (cass_select_task_rq_fair cassW3 = (cass_reduce (0, 10) [(1, 17)]).1 ∧
      (∀ b0 : Nat × Nat, cass_reduce b0 [] = b0) ∧
      (∀ (b0 c : Nat × Nat) (tl : List (Nat × Nat)),
          cass_reduce b0 (c :: tl) =
            cass_reduce (if c.2 ≤ b0.2 then c else b0) tl) ∧
      (∀ x ∈ (0, 10) :: [(1, 17)], (cass_reduce (0, 10) [(1, 17)]).2 ≤ x.2) ∧
      (∃ l1 l2, (0, 10) :: [(1, 17)] = l1 ++ cass_reduce (0, 10) [(1, 17)] :: l2 ∧
          (∀ x ∈ l1, (cass_reduce (0, 10) [(1, 17)]).2 ≤ x.2) ∧
          (∀ x ∈ l2, (cass_reduce (0, 10) [(1, 17)]).2 < x.2)) ∧
      (∀ x ∈ (0, 10) :: [(1, 17)], x.2 = (cass_reduce (0, 10) [(1, 17)]).2 →
          x.1 ≤ (cass_reduce (0, 10) [(1, 17)]).1)) :=
  ⟨by decide, by decide,
    cass_c3_tie_break cassW3 (0, 10) [(1, 17)] (by decide) (by decide)⟩

/-- Spec example scenario 3: waking cpu 0, previous cpu 1, both loads 40,
task load 10, waker load 15. -/
def cassW4 : CassInput :=
  { cassBase with
    sd_balance_wake := true
    wf_sync := true
    prev_cpu := 1
    rq_load := fun _ => 40
    p_h_load := 10
    curr_h_load := 15 }

theorem cass_c4_sync_saturation_witness :
    cass_sync cassW4 = true ∧
      (cass_proj cassW4 0 =
        (if 0 = cassW4.prev_cpu then cassW4.rq_load 0 % ULONG_MOD
         else (cassW4.rq_load 0 % ULONG_MOD + cass_p_load cassW4) % ULONG_MOD) -
        (if 0 = cassW4.this_cpu then cassW4.curr_h_load % ULONG_MOD else 0) ∧
      (0 = cassW4.this_cpu →
        (if 0 = cassW4.prev_cpu then cassW4.rq_load 0 % ULONG_MOD
         else (cassW4.rq_load 0 % ULONG_MOD + cass_p_load cassW4) % ULONG_MOD) ≤
          cassW4.curr_h_load % ULONG_MOD →
        cass_proj cassW4 0 = 0)) :=
  ⟨by decide, cass_c4_sync_saturation cassW4 0 (by decide)⟩

def cassW5 : CassInput :=
  { cassBase with
    task_queued := true
    p_h_load := 20
    rq_load := fun _ => 100 }

theorem cass_c5_async_projection_witness :
    cass_sync cassW5 = false ∧
      ((cass_p_queued cassW5 = true →
          cass_proj cassW5 1 =
            if 1 = cassW5.prev_cpu then cassW5.rq_load 1 % ULONG_MOD
            else (cassW5.rq_load 1 % ULONG_MOD + cass_p_load cassW5) % ULONG_MOD) ∧
      (cass_p_queued cassW5 = false →
          cass_proj cassW5 1 =
            (cassW5.rq_load 1 % ULONG_MOD + cass_p_load cassW5) % ULONG_MOD)) :=
  ⟨by decide, cass_c5_async_projection cassW5 1 (by decide)⟩

def cassW7 : CassInput :=
  { cassBase with
    sd_balance_wake := true
    wai := fun _ _ _ => some 1
    sis := fun _ wa => wa }

theorem cass_c7_idle_short_circuit_witness :
    cass_fast cassW7 = some 1 ∧
      (cass_select_task_rq_fair cassW7 = 1 ∧
      (∃ wa_cpu, cassW7.wai cassW7.this_cpu cassW7.prev_cpu (cass_sync0 cassW7) =
          some wa_cpu ∧ 1 = cassW7.sis cassW7.prev_cpu wa_cpu) ∧
      (∀ g : Nat → Nat,
          cass_select_task_rq_fair { cassW7 with rq_load := g } = 1) ∧
      (∀ j : CassInput, cass_fast j = none →
          cass_select_task_rq_fair j = cass_slow j)) :=
  ⟨by decide, cass_c7_idle_short_circuit cassW7 1 (by decide)⟩

def cassW8 : CassInput :=
  { cassBase with wf_fork := true, rq_load := fun _ => 30, p_h_load := 99 }

theorem cass_c8_fork_zero_load_witness :
    (cassW8.sd_balance_fork = true ∨ cassW8.wf_fork = true) ∧
      (((cassW8.sd_balance_fork = true ∨ cassW8.wf_fork = true) →
          cass_p_load cassW8 = 0 ∧
          ∀ c, cass_proj cassW8 c =
            if cass_sync cassW8 = true ∧ c = cassW8.this_cpu
            then cassW8.rq_load c % ULONG_MOD - cassW8.curr_h_load % ULONG_MOD
            else cassW8.rq_load c % ULONG_MOD) ∧
      (cassW8.sd_balance_fork = false → cassW8.wf_fork = false →
          cass_p_load cassW8 = cassW8.p_h_load % ULONG_MOD)) :=
  ⟨Or.inr rfl, cass_c8_fork_zero_load cassW8⟩

def cassW10 : CassInput :=
  { cassBase with
    current_is_p := true
    p_h_load := 9
    rq_load := fun _ => 50 }

theorem cass_c10_current_counts_queued_witness :
    cassW10.current_is_p = true ∧
      (cass_p_queued cassW10 = true ∧
      (cass_sync cassW10 = false →
        ∀ c, cass_proj cassW10 c =
          if c = cassW10.prev_cpu then cassW10.rq_load c % ULONG_MOD
          else (cassW10.rq_load c % ULONG_MOD + cass_p_load cassW10) % ULONG_MOD)) :=
  ⟨rfl, cass_c10_current_counts_queued cassW10 rfl⟩
